import Mathlib

/-!
Shallow embedding of `src/octo2sent.py`: a timer-triggered function that
fetches paginated events from an Octopus Deploy HTTP API and ships them as a
batch of flat log entries to an Azure Monitor ingestion endpoint.

Machine-level conventions of the embedding:
* A JSON event record becomes the structure `Event`; a field read with
  `event.get(key, default)` becomes `Option` access with `Option.getD`.
* A Python dict literal (the log entry) becomes an association list of
  string pairs, preserving key insertion order.
* The upstream HTTP server is a function from the `skip` offset to a
  response; `response.raise_for_status()` raises exactly when the status
  code lies in [400, 600).
* The unbounded `while True` pagination loop becomes a fuel-indexed
  recursion; `outOfFuel` marks runs the Python loop would still be inside.
* `datetime.utcnow()` is an integer count of seconds since the Unix epoch;
  `strftime` on the date is computed by the standard civil-from-days
  algorithm for the proleptic Gregorian calendar.
-/

namespace Octo2Sent

/-- Nested object with `Id` and `Name`, as used for Project, Environment
and Tenant in the upstream event payload. -/
structure OctoRef where
  Id : Option String
  Name : Option String
deriving DecidableEq, Repr

/-- Nested user object carrying a `DisplayName`. -/
structure OctoUser where
  DisplayName : Option String
deriving DecidableEq, Repr

/-- An upstream event record, with the fields the script reads. A `none`
field models an absent key in the JSON object. -/
structure Event where
  Occurred : Option String
  Id : Option String
  Category : Option String
  Message : Option String
  Severity : Option String
  User : Option OctoUser
  Project : Option OctoRef
  Environment : Option OctoRef
  Tenant : Option OctoRef
deriving DecidableEq, Repr

/-- Zero-pad a number to two digits, as `strftime` field `%m` or `%d`. -/
def pad2 (n : Int) : String :=
  if n < 10 then "0" ++ toString n else toString n

/-- Zero-pad a year to four digits, as `strftime` field `%Y`. -/
def pad4 (n : Int) : String :=
  if n < 0 then toString n
  else if n < 10 then "000" ++ toString n
  else if n < 100 then "00" ++ toString n
  else if n < 1000 then "0" ++ toString n
  else toString n

/-- Convert a count of days since 1970-01-01 to a proleptic Gregorian
civil date (year, month, day). -/
def civilFromDays (z0 : Int) : Int × Int × Int :=
  let z := z0 + 719468
  let era := Int.fdiv z 146097
  let doe := z - era * 146097
  let yoe := Int.fdiv (doe - Int.fdiv doe 1460 + Int.fdiv doe 36524 - Int.fdiv doe 146096) 365
  let y := yoe + era * 400
  let doy := doe - (365 * yoe + Int.fdiv yoe 4 - Int.fdiv yoe 100)
  let mp := Int.fdiv (5 * doy + 2) 153
  let d := doy - Int.fdiv (153 * mp + 2) 5 + 1
  let m := mp + (if mp < 10 then 3 else -9)
  (if m ≤ 2 then y + 1 else y, m, d)

/-- Format an epoch-seconds instant as `strftime` pattern `%m/%d/%Y`. -/
def mmddyyyy (secs : Int) : String :=
  let c := civilFromDays (Int.fdiv secs 86400)
  pad2 c.2.1 ++ "/" ++ pad2 c.2.2 ++ "/" ++ pad4 c.1

/-- Accumulating decimal parser over a character list: fails on the first
non-digit character. -/
def parseDigitsAux : List Char → Nat → Option Nat
  | [], acc => some acc
  | c :: rest, acc =>
    if c.isDigit then parseDigitsAux rest (acc * 10 + (c.toNat - 48)) else none

/-- The Python builtin `int` on a plain decimal string literal, optionally
signed; `none` models the raised ValueError on a malformed string. -/
def py_int (s : String) : Option Int :=
  match s.data with
  | [] => none
  | c :: rest =>
    if c = '-' then
      match rest with
      | [] => none
      | _ => (parseDigitsAux rest 0).map (fun n => -(n : Int))
    else (parseDigitsAux (c :: rest) 0).map (fun n => (n : Int))

/-- `hours_back = int(os.environ.get("EVENTS_HOURS_BACK", "1"))`: the
optional environment override parsed as an integer, `none` meaning the
`int` call raises. -/
def hours_back_of (env : Option String) : Option Int :=
  py_int (env.getD "1")

/-- One HTTP response from the upstream events endpoint: a status code and
the `Items` array of the JSON body (`none` when the body lacks the key). -/
structure HttpResponse where
  status : Nat
  items : Option (List Event)
deriving DecidableEq, Repr

/-- One issued GET request: the query parameters `from`, `take`, `skip`. -/
structure Request where
  fromParam : String
  takeParam : Nat
  skipParam : Nat
deriving DecidableEq, Repr

/-- Outcome of `fetch_octopus_events`, with the trace of issued requests:
normal return, a `raise_for_status` exception propagating out, or fuel
exhaustion (the Python loop is still running). -/
inductive FetchResult where
  | ok (events : List Event) (requests : List Request)
  | httpError (status : Nat) (requests : List Request)
  | outOfFuel (requests : List Request)
deriving DecidableEq, Repr

/-- The requests issued so far, in any outcome. -/
def FetchResult.requests : FetchResult → List Request
  | .ok _ rs => rs
  | .httpError _ rs => rs
  | .outOfFuel rs => rs

/-- `requests.Response.raise_for_status` raises exactly for status codes in
[400, 600). -/
def errorStatus (status : Nat) : Prop :=
  400 ≤ status ∧ status < 600

instance (status : Nat) : Decidable (errorStatus status) := by
  unfold errorStatus; infer_instance

/-- The `while True` pagination loop of `fetch_octopus_events`
(src/octo2sent.py lines 81-94), one constructor application per iteration:
issue the GET at the current `skip`, abort on an error status, append
`data.get("Items", [])` to the accumulator, stop when the page is shorter
than `take`, else advance `skip` by `take`. -/
def fetch_loop (server : Nat → HttpResponse) (fromDate : String) (takeSize : Nat) :
    Nat → Nat → List Event → List Request → FetchResult
  | 0, _, _, reqs => .outOfFuel reqs
  | fuel + 1, skip, all_events, reqs =>
    let response := server skip
    let reqs2 := reqs ++ [⟨fromDate, takeSize, skip⟩]
    if errorStatus response.status then
      .httpError response.status reqs2
    else
      let items := response.items.getD []
      let all_events2 := all_events ++ items
      if items.length < takeSize then
        .ok all_events2 reqs2
      else
        fetch_loop server fromDate takeSize fuel (skip + takeSize) all_events2 reqs2

/-- `fetch_octopus_events` (src/octo2sent.py lines 67-96): computes the
`from` date as now minus `hours_back` hours formatted `%m/%d/%Y`, then runs
the pagination loop with `take = 1000` starting at `skip = 0`. -/
def fetch_octopus_events (server : Nat → HttpResponse) (nowSecs : Int)
    (hours_back : Int) (fuel : Nat) : FetchResult :=
  let from_date := mmddyyyy (nowSecs - 3600 * hours_back)
  fetch_loop server from_date 1000 fuel 0 [] []

/-- The flat log-entry projection of one event (src/octo2sent.py lines
38-52), as an association list in dict insertion order. `now_iso` models
`datetime.utcnow().isoformat()` evaluated during the projection. -/
def make_log_entry (now_iso : String) (event : Event) : List (String × String) :=
  [ ("Time", event.Occurred.getD now_iso),
    ("EventId", event.Id.getD ""),
    ("Category", event.Category.getD ""),
    ("Message", event.Message.getD ""),
    ("Severity", event.Severity.getD ""),
    ("User", match event.User with
      | some u => u.DisplayName.getD ""
      | none => ""),
    ("ProjectId", match event.Project with
      | some p => p.Id.getD ""
      | none => ""),
    ("ProjectName", match event.Project with
      | some p => p.Name.getD ""
      | none => ""),
    ("EnvironmentId", match event.Environment with
      | some p => p.Id.getD ""
      | none => ""),
    ("EnvironmentName", match event.Environment with
      | some p => p.Name.getD ""
      | none => ""),
    ("TenantId", match event.Tenant with
      | some p => p.Id.getD ""
      | none => ""),
    ("TenantName", match event.Tenant with
      | some p => p.Name.getD ""
      | none => "") ]

/-- An exception raised by the ingestion upload call: the typed
`HttpResponseError` or any other `Exception`. Both `except` arms of the
script catch, so both are modelled. -/
inductive PyExn where
  | httpResponseError (msg : String)
  | otherExn (msg : String)
deriving DecidableEq, Repr

/-- How the invocation of `main` ends: normal return, or the
`requests.HTTPError` from `raise_for_status` propagating to the caller, or
fuel exhaustion inside the pagination loop. -/
inductive RunOutcome where
  | completed
  | raisedHttpStatus (status : Nat)
  | stillLooping
deriving DecidableEq, Repr

/-- Observable trace of one invocation of `main`: the upstream requests
issued, how many upload calls were made, the shipped batch, which log lines
fired, and how the invocation ended. -/
structure RunTrace where
  requests : List Request
  uploadCalls : Nat
  logs : List (List (String × String))
  emptyWarned : Bool
  uploadErrorLogged : Bool
  outcome : RunOutcome
deriving DecidableEq, Repr

/-- `main` (src/octo2sent.py lines 12-64): fetch all events, return early
with a warning on an empty list, project each event to a log entry in
order, then make one upload call whose exceptions are caught and logged.
`upload` models the behaviour of `client.upload` on the batch. -/
def main (server : Nat → HttpResponse) (nowSecs : Int) (now_iso : String)
    (hours_back : Int)
    (upload : List (List (String × String)) → Except PyExn Unit)
    (fuel : Nat) : RunTrace :=
  match fetch_octopus_events server nowSecs hours_back fuel with
  | .httpError s reqs =>
    ⟨reqs, 0, [], false, false, .raisedHttpStatus s⟩
  | .outOfFuel reqs =>
    ⟨reqs, 0, [], false, false, .stillLooping⟩
  | .ok events reqs =>
    if events.isEmpty then
      ⟨reqs, 0, [], true, false, .completed⟩
    else
      let logs := events.map (make_log_entry now_iso)
      match upload logs with
      | .ok _ => ⟨reqs, 1, logs, false, false, .completed⟩
      | .error _ => ⟨reqs, 1, logs, false, true, .completed⟩

/-- The `Items` list of the page served at a given `skip` offset, with the
missing-key default `[]` applied. -/
def pageItems (server : Nat → HttpResponse) (skip : Nat) : List Event :=
  (server skip).items.getD []

/-- The keys of a produced log entry, in dict insertion order. -/
def logEntryKeys : List String :=
  ["Time", "EventId", "Category", "Message", "Severity", "User", "ProjectId",
   "ProjectName", "EnvironmentId", "EnvironmentName", "TenantId", "TenantName"]

/-- An event with every optional field absent. -/
def emptyEvent : Event :=
  ⟨none, none, none, none, none, none, none, none, none⟩

/-- A sample event with identifier and category present and every nested
object absent. -/
def sampleEvent : Event :=
  { emptyEvent with Id := some "Events-1", Category := some "Deploy" }

/-- A one-page server returning only `sampleEvent`. -/
def srvOneSample : Nat → HttpResponse :=
  fun _ => ⟨200, some [sampleEvent]⟩

/-- A full page: exactly 1000 events. -/
def fullPage : List Event :=
  List.replicate 1000 emptyEvent

/-- A server with two full pages followed by a one-event page. -/
def srvTwoFull : Nat → HttpResponse := fun skip =>
  if skip = 0 then ⟨200, some fullPage⟩
  else if skip = 1000 then ⟨200, some fullPage⟩
  else ⟨200, some [emptyEvent]⟩

/-- A server with one full page followed by empty pages. -/
def srvFullEmpty : Nat → HttpResponse := fun skip =>
  if skip = 0 then ⟨200, some fullPage⟩ else ⟨200, some []⟩

/-- A server answering every request with HTTP status 500. -/
def srvErr : Nat → HttpResponse := fun _ => ⟨500, some []⟩

/-- A server answering with success but no Items key in the body. -/
def srvNoItems : Nat → HttpResponse := fun _ => ⟨200, none⟩

/-- Core pagination lemma: if the pages at offsets `skip + t*0, ...,
`skip + t*(n-1)` are successful and exactly full, and the page at
`skip + t*n` is successful and short, the loop returns the concatenation of
all `n+1` pages and its request trace is the arithmetic progression of
offsets, one request per page. -/
theorem fetch_loop_pages_ok (server : Nat → HttpResponse) (fd : String) (t : Nat)
    (n : Nat) :
    ∀ (fuel skip : Nat) (acc : List Event) (reqs : List Request),
    n < fuel →
    (∀ i, i < n → ¬ errorStatus (server (skip + t * i)).status ∧
        (pageItems server (skip + t * i)).length = t) →
    ¬ errorStatus (server (skip + t * n)).status →
    (pageItems server (skip + t * n)).length < t →
    fetch_loop server fd t fuel skip acc reqs =
      .ok (acc ++ ((List.range (n+1)).map (fun i => pageItems server (skip + t * i))).flatten)
          (reqs ++ (List.range (n+1)).map (fun i => ⟨fd, t, skip + t * i⟩)) := by
  induction n with
  | zero =>
    intro fuel skip acc reqs hf _ hns hshort
    obtain ⟨f, rfl⟩ : ∃ f, fuel = f + 1 := ⟨fuel - 1, by omega⟩
    simp only [Nat.mul_zero, Nat.add_zero] at hns hshort
    simp only [fetch_loop]
    rw [if_neg hns, if_pos (by simpa [pageItems] using hshort)]
    simp [pageItems, List.range_succ]
  | succ n ih =>
    intro fuel skip acc reqs hf hfull hns hshort
    obtain ⟨f, rfl⟩ : ∃ f, fuel = f + 1 := ⟨fuel - 1, by omega⟩
    have h0 := hfull 0 (Nat.succ_pos n)
    simp only [Nat.mul_zero, Nat.add_zero] at h0
    have hnotshort : ¬ ((server skip).items.getD []).length < t := by
      have := h0.2
      simp only [pageItems] at this
      omega
    have hstep : fetch_loop server fd t (f + 1) skip acc reqs =
        fetch_loop server fd t f (skip + t) (acc ++ (server skip).items.getD [])
          (reqs ++ [⟨fd, t, skip⟩]) := by
      simp only [fetch_loop]
      rw [if_neg h0.1, if_neg hnotshort]
    have hrec := ih f (skip + t) (acc ++ (server skip).items.getD [])
      (reqs ++ [⟨fd, t, skip⟩]) (by omega)
      (fun i hi => by
        have := hfull (i + 1) (by omega)
        have harith : skip + t * (i + 1) = skip + t + t * i := by ring
        rwa [harith] at this)
      (by
        have harith : skip + t * (n + 1) = skip + t + t * n := by ring
        rwa [harith] at hns)
      (by
        have harith : skip + t * (n + 1) = skip + t + t * n := by ring
        rwa [harith] at hshort)
    have hshiftI :
        (List.range (n+1)).map (fun i => pageItems server (skip + t + t * i)) =
        (List.range (n+1)).map (fun i => pageItems server (skip + t * (i + 1))) := by
      apply List.map_congr_left
      intro i _
      congr 1
      ring
    have hshiftR :
        (List.range (n+1)).map (fun i => (⟨fd, t, skip + t + t * i⟩ : Request)) =
        (List.range (n+1)).map (fun i => (⟨fd, t, skip + t * (i + 1)⟩ : Request)) := by
      apply List.map_congr_left
      intro i _
      congr 1
      ring
    rw [hstep, hrec, hshiftI, hshiftR]
    congr 1
    · rw [List.append_assoc]
      congr 1
      rw [List.range_succ_eq_map (n + 1)]
      simp [List.map_map, Function.comp_def, pageItems, Nat.succ_eq_add_one]
    · rw [List.append_assoc]
      congr 1
      rw [List.range_succ_eq_map (n + 1)]
      simp [List.map_map, Function.comp_def, Nat.succ_eq_add_one]

/-- Termination lemma: as soon as some reachable offset `skip + t*k` serves
a short page, the loop cannot still be running after more than `k` further
iterations, whatever the earlier pages look like. -/
theorem fetch_loop_halts (server : Nat → HttpResponse) (fd : String) (t : Nat)
    (k : Nat) :
    ∀ (fuel skip : Nat) (acc : List Event) (reqs : List Request),
    k < fuel →
    (pageItems server (skip + t * k)).length < t →
    ∀ rs, fetch_loop server fd t fuel skip acc reqs ≠ .outOfFuel rs := by
  induction k with
  | zero =>
    intro fuel skip acc reqs hf hshort rs
    obtain ⟨f, rfl⟩ : ∃ f, fuel = f + 1 := ⟨fuel - 1, by omega⟩
    simp only [Nat.mul_zero, Nat.add_zero, pageItems] at hshort
    simp only [fetch_loop]
    by_cases herr : errorStatus (server skip).status
    · rw [if_pos herr]; simp
    · rw [if_neg herr, if_pos hshort]; simp
  | succ k ih =>
    intro fuel skip acc reqs hf hshort rs
    obtain ⟨f, rfl⟩ : ∃ f, fuel = f + 1 := ⟨fuel - 1, by omega⟩
    simp only [fetch_loop]
    by_cases herr : errorStatus (server skip).status
    · rw [if_pos herr]; simp
    · rw [if_neg herr]
      by_cases hs0 : ((server skip).items.getD []).length < t
      · rw [if_pos hs0]; simp
      · rw [if_neg hs0]
        apply ih f (skip + t) _ _ (by omega)
        have harith : skip + t * (k + 1) = skip + t + t * k := by ring
        rwa [harith] at hshort

/-- Error-trace lemma: when the loop aborts with an HTTP error, the failed
request is the last one issued, every earlier request hit a successful page
of at least `take` items, and the request trace is the arithmetic
progression of offsets with one request per offset. -/
theorem fetch_loop_httpError_trace (server : Nat → HttpResponse) (fd : String)
    (t : Nat) :
    ∀ (fuel skip : Nat) (acc : List Event) (reqs : List Request) (s : Nat)
      (rs : List Request),
    fetch_loop server fd t fuel skip acc reqs = .httpError s rs →
    ∃ m, rs = reqs ++ (List.range (m+1)).map (fun i => ⟨fd, t, skip + t * i⟩) ∧
      errorStatus (server (skip + t * m)).status ∧
      (server (skip + t * m)).status = s ∧
      ∀ i, i < m → ¬ errorStatus (server (skip + t * i)).status ∧
        t ≤ (pageItems server (skip + t * i)).length := by
  intro fuel
  induction fuel with
  | zero =>
    intro skip acc reqs s rs h
    simp [fetch_loop] at h
  | succ f ih =>
    intro skip acc reqs s rs h
    simp only [fetch_loop] at h
    by_cases herr : errorStatus (server skip).status
    · rw [if_pos herr] at h
      obtain ⟨hs, hrs⟩ : (server skip).status = s ∧
          reqs ++ [(⟨fd, t, skip⟩ : Request)] = rs := by
        cases h; exact ⟨rfl, rfl⟩
      refine ⟨0, ?_, ?_, ?_, ?_⟩
      · rw [← hrs]; simp [List.range_succ]
      · simpa using herr
      · simpa using hs
      · intro i hi; omega
    · rw [if_neg herr] at h
      by_cases hs0 : ((server skip).items.getD []).length < t
      · rw [if_pos hs0] at h; cases h
      · rw [if_neg hs0] at h
        obtain ⟨m, hrs, herrm, hsm, hfullm⟩ := ih (skip + t) _ _ s rs h
        refine ⟨m + 1, ?_, ?_, ?_, ?_⟩
        · rw [hrs, List.append_assoc]
          congr 1
          rw [List.range_succ_eq_map (m + 1)]
          simp only [List.map_cons, List.map_map, Function.comp_def,
            Nat.mul_zero, Nat.add_zero, Nat.succ_eq_add_one]
          rw [List.singleton_append]
          congr 1
          apply List.map_congr_left
          intro i _
          congr 1
          ring
        · have harith : skip + t * (m + 1) = skip + t + t * m := by ring
          rwa [harith]
        · have harith : skip + t * (m + 1) = skip + t + t * m := by ring
          rwa [harith]
        · intro i hi
          match i, hi with
          | 0, _ =>
            constructor
            · simpa using herr
            · simp only [Nat.mul_zero, Nat.add_zero, pageItems]
              omega
          | j + 1, hj =>
            have := hfullm j (by omega)
            have harith : skip + t * (j + 1) = skip + t + t * j := by ring
            rwa [harith]

/-- C1: for every fetched event list the shipper produces exactly one log
entry per event, in the same order (the batch is the pointwise projection
of the event list); in each entry an absent nested
Project/Environment/Tenant/User object yields empty-string derived fields,
with the key still present, and the identifier, category, message and
severity values are copied verbatim. -/
theorem C1_shipper_projection
    (server : Nat → HttpResponse) (nowSecs : Int) (now_iso : String)
    (hours_back : Int) (upload : List (List (String × String)) → Except PyExn Unit)
    (fuel : Nat) (events : List Event) (reqs : List Request)
    (hfetch : fetch_octopus_events server nowSecs hours_back fuel = .ok events reqs) :
    (main server nowSecs now_iso hours_back upload fuel).logs =
      events.map (make_log_entry now_iso) ∧
    (main server nowSecs now_iso hours_back upload fuel).logs.length = events.length ∧
    (∀ e : Event,
      (e.User = none → (make_log_entry now_iso e).lookup "User" = some "") ∧
      (e.Project = none →
        (make_log_entry now_iso e).lookup "ProjectId" = some "" ∧
        (make_log_entry now_iso e).lookup "ProjectName" = some "") ∧
      (e.Environment = none →
        (make_log_entry now_iso e).lookup "EnvironmentId" = some "" ∧
        (make_log_entry now_iso e).lookup "EnvironmentName" = some "") ∧
      (e.Tenant = none →
        (make_log_entry now_iso e).lookup "TenantId" = some "" ∧
        (make_log_entry now_iso e).lookup "TenantName" = some "") ∧
      (∀ v, e.Id = some v → (make_log_entry now_iso e).lookup "EventId" = some v) ∧
      (∀ v, e.Category = some v → (make_log_entry now_iso e).lookup "Category" = some v) ∧
      (∀ v, e.Message = some v → (make_log_entry now_iso e).lookup "Message" = some v) ∧
      (∀ v, e.Severity = some v →
        (make_log_entry now_iso e).lookup "Severity" = some v)) := by
  have hlogs : (main server nowSecs now_iso hours_back upload fuel).logs =
      events.map (make_log_entry now_iso) := by
    simp only [main, hfetch]
    by_cases he : events.isEmpty
    · rw [if_pos he]
      rw [List.isEmpty_iff] at he
      simp [he]
    · rw [if_neg he]
      cases upload (events.map (make_log_entry now_iso)) <;> simp
  refine ⟨hlogs, by rw [hlogs]; exact List.length_map _ _, ?_⟩
  intro e
  refine ⟨?_, ?_, ?_, ?_, ?_, ?_, ?_, ?_⟩
  · intro h; simp [make_log_entry, List.lookup, h]
  · intro h; simp [make_log_entry, List.lookup, h]
  · intro h; simp [make_log_entry, List.lookup, h]
  · intro h; simp [make_log_entry, List.lookup, h]
  · intro v h; simp [make_log_entry, List.lookup, h]
  · intro v h; simp [make_log_entry, List.lookup, h]
  · intro v h; simp [make_log_entry, List.lookup, h]
  · intro v h; simp [make_log_entry, List.lookup, h]

/-- C1 witness: a run over a one-page server whose single event has no
nested objects, with identifier and category present. -/
theorem C1_shipper_projection_witness :
    ((main srvOneSample 1760227200 "2025-10-12T00:00:00" 1
        (fun _ => .ok ()) 3).logs =
      [sampleEvent].map (make_log_entry "2025-10-12T00:00:00")) ∧
    ((make_log_entry "2025-10-12T00:00:00" sampleEvent).lookup
        "ProjectId" = some "") ∧
    ((make_log_entry "2025-10-12T00:00:00" sampleEvent).lookup
        "EventId" = some "Events-1") := by
  have h := C1_shipper_projection srvOneSample 1760227200 "2025-10-12T00:00:00" 1
    (fun _ => .ok ()) 3 [sampleEvent]
    [⟨mmddyyyy (1760227200 - 3600 * 1), 1000, 0⟩] (by rfl)
  have hProj := (h.2.2 sampleEvent).2.1 (by rfl)
  have hId := ((h.2.2 sampleEvent).2.2.2.2.1) "Events-1" (by rfl)
  exact ⟨h.1, hProj.1, hId⟩

/-- C3: when the single upload call raises (the typed HTTP error or any
other exception), the error is logged and swallowed and the invocation
completes without raising. -/
theorem C3_upload_failure_swallowed
    (server : Nat → HttpResponse) (nowSecs : Int) (now_iso : String)
    (hours_back : Int) (upload : List (List (String × String)) → Except PyExn Unit)
    (fuel : Nat) (events : List Event) (reqs : List Request) (exn : PyExn)
    (hfetch : fetch_octopus_events server nowSecs hours_back fuel = .ok events reqs)
    (hne : events ≠ [])
    (hup : upload (events.map (make_log_entry now_iso)) = .error exn) :
    (main server nowSecs now_iso hours_back upload fuel).outcome = .completed ∧
    (main server nowSecs now_iso hours_back upload fuel).uploadErrorLogged = true ∧
    (main server nowSecs now_iso hours_back upload fuel).uploadCalls = 1 := by
  have he : ¬ events.isEmpty := by
    rw [List.isEmpty_iff]; exact hne
  simp only [main, hfetch]
  rw [if_neg he, hup]
  exact ⟨rfl, rfl, rfl⟩

/-- C3 witness: a one-event run whose upload raises a non-HTTP exception
still completes. -/
theorem C3_upload_failure_swallowed_witness :
    (main (fun _ => ⟨200, some [emptyEvent]⟩) 0 "T" 1
      (fun _ => .error (.otherExn "boom")) 3).outcome = .completed ∧
    (main (fun _ => ⟨200, some [emptyEvent]⟩) 0 "T" 1
      (fun _ => .error (.otherExn "boom")) 3).uploadErrorLogged = true ∧
    (main (fun _ => ⟨200, some [emptyEvent]⟩) 0 "T" 1
      (fun _ => .error (.otherExn "boom")) 3).uploadCalls = 1 :=
  C3_upload_failure_swallowed (fun _ => ⟨200, some [emptyEvent]⟩) 0 "T" 1
    (fun _ => .error (.otherExn "boom")) 3 [emptyEvent]
    [⟨mmddyyyy (0 - 3600 * 1), 1000, 0⟩] (.otherExn "boom")
    (by rfl) (by simp) (by rfl)

/-- C5: an empty fetched event list makes the invocation log a warning and
return with zero upload calls. -/
theorem C5_empty_fetch_no_upload
    (server : Nat → HttpResponse) (nowSecs : Int) (now_iso : String)
    (hours_back : Int) (upload : List (List (String × String)) → Except PyExn Unit)
    (fuel : Nat) (reqs : List Request)
    (hfetch : fetch_octopus_events server nowSecs hours_back fuel = .ok [] reqs) :
    (main server nowSecs now_iso hours_back upload fuel).uploadCalls = 0 ∧
    (main server nowSecs now_iso hours_back upload fuel).emptyWarned = true ∧
    (main server nowSecs now_iso hours_back upload fuel).outcome = .completed := by
  simp [main, hfetch]

/-- C5 witness: a server whose first page is empty yields a warned, upload
free, completed run. -/
theorem C5_empty_fetch_no_upload_witness :
    (main (fun _ => ⟨200, some []⟩) 0 "T" 1 (fun _ => .ok ()) 3).uploadCalls = 0 ∧
    (main (fun _ => ⟨200, some []⟩) 0 "T" 1 (fun _ => .ok ()) 3).emptyWarned = true ∧
    (main (fun _ => ⟨200, some []⟩) 0 "T" 1 (fun _ => .ok ()) 3).outcome = .completed :=
  C5_empty_fetch_no_upload (fun _ => ⟨200, some []⟩) 0 "T" 1 (fun _ => .ok ()) 3
    [⟨mmddyyyy (0 - 3600 * 1), 1000, 0⟩] (by rfl)

/-- C6 counterexample: the log entry of a concrete event has twelve fields,
not eleven as claimed. -/
theorem C6_eleven_fields_cex :
    ¬ (make_log_entry "2025-10-12T00:00:00" emptyEvent).length = 11 := by
  decide

/-- C6 (amended): every log entry produced by the shipper is a flat record
with exactly twelve named string fields, whose keys are, in order: Time,
EventId, Category, Message, Severity, User, ProjectId, ProjectName,
EnvironmentId, EnvironmentName, TenantId, TenantName. -/
theorem C6_twelve_fields (now_iso : String) (e : Event) :
    (make_log_entry now_iso e).map Prod.fst = logEntryKeys ∧
    (make_log_entry now_iso e).length = 12 := by
  simp [make_log_entry, logEntryKeys]

/-- C9: an event with no Occurred timestamp gets the current UTC ISO time
as its Time field, not the empty string, while the other scalar fields
default to the empty string when absent. -/
theorem C9_missing_occurred_time (now_iso : String) (e : Event)
    (hocc : e.Occurred = none) :
    (make_log_entry now_iso e).lookup "Time" = some now_iso ∧
    (now_iso ≠ "" → ¬ (make_log_entry now_iso e).lookup "Time" = some "") ∧
    (e.Id = none → (make_log_entry now_iso e).lookup "EventId" = some "") ∧
    (e.Category = none → (make_log_entry now_iso e).lookup "Category" = some "") ∧
    (e.Message = none → (make_log_entry now_iso e).lookup "Message" = some "") ∧
    (e.Severity = none →
      (make_log_entry now_iso e).lookup "Severity" = some "") := by
  have htime : (make_log_entry now_iso e).lookup "Time" = some now_iso := by
    simp [make_log_entry, List.lookup, hocc]
  refine ⟨htime, ?_, ?_, ?_, ?_, ?_⟩
  · intro hne hcontra
    rw [htime] at hcontra
    exact hne (Option.some_injective _ hcontra)
  · intro h; simp [make_log_entry, List.lookup, h]
  · intro h; simp [make_log_entry, List.lookup, h]
  · intro h; simp [make_log_entry, List.lookup, h]
  · intro h; simp [make_log_entry, List.lookup, h]

/-- C9 witness: the all-absent event at a concrete nonempty ISO time. -/
theorem C9_missing_occurred_time_witness :
    (make_log_entry "2025-10-12T00:00:00" emptyEvent).lookup "Time" =
      some "2025-10-12T00:00:00" ∧
    ¬ (make_log_entry "2025-10-12T00:00:00" emptyEvent).lookup "Time" = some "" ∧
    (make_log_entry "2025-10-12T00:00:00" emptyEvent).lookup "EventId" = some "" := by
  have h := C9_missing_occurred_time "2025-10-12T00:00:00" emptyEvent (by rfl)
  exact ⟨h.1, h.2.1 (by decide), h.2.2.1 (by rfl)⟩

/-- Every request the loop adds to the trace carries the fixed `from` date
and the fixed page size. -/
theorem fetch_loop_fromParam (server : Nat → HttpResponse) (fd : String) (t : Nat) :
    ∀ (fuel skip : Nat) (acc : List Event) (reqs : List Request) (r : Request),
    r ∈ (fetch_loop server fd t fuel skip acc reqs).requests →
    r ∈ reqs ∨ (r.fromParam = fd ∧ r.takeParam = t) := by
  intro fuel
  induction fuel with
  | zero =>
    intro skip acc reqs r h
    simp only [fetch_loop, FetchResult.requests] at h
    exact Or.inl h
  | succ f ih =>
    intro skip acc reqs r h
    simp only [fetch_loop] at h
    by_cases herr : errorStatus (server skip).status
    · rw [if_pos herr] at h
      simp only [FetchResult.requests, List.mem_append, List.mem_singleton] at h
      rcases h with h | h
      · exact Or.inl h
      · right; rw [h]; exact ⟨rfl, rfl⟩
    · rw [if_neg herr] at h
      by_cases hs : ((server skip).items.getD []).length < t
      · rw [if_pos hs] at h
        simp only [FetchResult.requests, List.mem_append, List.mem_singleton] at h
        rcases h with h | h
        · exact Or.inl h
        · right; rw [h]; exact ⟨rfl, rfl⟩
      · rw [if_neg hs] at h
        rcases ih _ _ _ r h with h2 | h2
        · simp only [List.mem_append, List.mem_singleton] at h2
          rcases h2 with h2 | h2
          · exact Or.inl h2
          · right; rw [h2]; exact ⟨rfl, rfl⟩
        · exact Or.inr h2

/-- Shared helper: full successful pages before offset `1000*n`, and an
effectively empty successful page there, make the fetch return exactly the
items of the full pages with one request per page plus the final one. -/
theorem fetch_pages_then_empty (server : Nat → HttpResponse) (nowSecs : Int)
    (hours_back : Int) (n fuel : Nat)
    (hfuel : n < fuel)
    (hfull : ∀ i, i < n → ¬ errorStatus (server (1000 * i)).status ∧
      (pageItems server (1000 * i)).length = 1000)
    (hlastok : ¬ errorStatus (server (1000 * n)).status)
    (hempty : pageItems server (1000 * n) = []) :
    fetch_octopus_events server nowSecs hours_back fuel =
      .ok (((List.range n).map (fun i => pageItems server (1000 * i))).flatten)
        ((List.range (n+1)).map
          (fun i => ⟨mmddyyyy (nowSecs - 3600 * hours_back), 1000, 1000 * i⟩)) := by
  have h := fetch_loop_pages_ok server (mmddyyyy (nowSecs - 3600 * hours_back)) 1000 n
    fuel 0 [] [] hfuel
    (fun i hi => by simpa using hfull i hi)
    (by simpa using hlastok)
    (by simp [hempty])
  simp only [fetch_octopus_events]
  rw [h]
  simp only [List.nil_append, Nat.zero_add]
  congr 1
  rw [List.range_succ]
  simp [hempty]

/-- C2: with full successful pages at offsets 0, 1000, ..., 1000*(n-1) and
a successful short page at offset 1000*n, the fetcher requests every page
with take 1000, advances skip by 1000 per full page, stops at the first
short page, and returns the concatenation of all pages in order, issuing
n+1 requests. -/
theorem C2_pagination_spec (server : Nat → HttpResponse) (nowSecs : Int)
    (hours_back : Int) (n fuel : Nat)
    (hfuel : n < fuel)
    (hfull : ∀ i, i < n → ¬ errorStatus (server (1000 * i)).status ∧
      (pageItems server (1000 * i)).length = 1000)
    (hlastok : ¬ errorStatus (server (1000 * n)).status)
    (hshort : (pageItems server (1000 * n)).length < 1000) :
    fetch_octopus_events server nowSecs hours_back fuel =
      .ok (((List.range (n+1)).map (fun i => pageItems server (1000 * i))).flatten)
        ((List.range (n+1)).map
          (fun i => ⟨mmddyyyy (nowSecs - 3600 * hours_back), 1000, 1000 * i⟩)) := by
  have h := fetch_loop_pages_ok server (mmddyyyy (nowSecs - 3600 * hours_back)) 1000 n
    fuel 0 [] [] hfuel
    (fun i hi => by simpa using hfull i hi)
    (by simpa using hlastok)
    (by simpa using hshort)
  simp only [fetch_octopus_events]
  rw [h]
  simp

/-- C2 witness: two full pages of 1000 events then a one-event page give
one fetch returning all 2001 events with exactly three requests. -/
theorem C2_pagination_spec_witness :
    fetch_octopus_events srvTwoFull 1760227200 1 10 =
      .ok (((List.range 3).map (fun i => pageItems srvTwoFull (1000 * i))).flatten)
        ((List.range 3).map
          (fun i => ⟨mmddyyyy (1760227200 - 3600 * 1), 1000, 1000 * i⟩)) := by
  apply C2_pagination_spec srvTwoFull 1760227200 1 2 10 (by omega)
  · intro i hi
    interval_cases i
    · exact ⟨by decide, by
        rw [show pageItems srvTwoFull (1000 * 0) = fullPage from rfl, fullPage,
          List.length_replicate]⟩
    · exact ⟨by decide, by
        rw [show pageItems srvTwoFull (1000 * 1) = fullPage from rfl, fullPage,
          List.length_replicate]⟩
  · decide
  · rw [show pageItems srvTwoFull (1000 * 2) = [emptyEvent] from rfl]
    decide

/-- C4: a non-success HTTP status on any page aborts the fetch: the
invocation ends with the raised status, no partial result and no upload
call; the failed request is the last one issued and no request offset is
ever repeated. -/
theorem C4_fetch_http_error_fatal (server : Nat → HttpResponse) (nowSecs : Int)
    (now_iso : String) (hours_back : Int)
    (upload : List (List (String × String)) → Except PyExn Unit) (fuel : Nat)
    (s : Nat) (rs : List Request)
    (hfetch : fetch_octopus_events server nowSecs hours_back fuel = .httpError s rs) :
    main server nowSecs now_iso hours_back upload fuel =
      ⟨rs, 0, [], false, false, .raisedHttpStatus s⟩ ∧
    ∃ m, rs = (List.range (m+1)).map
        (fun i => ⟨mmddyyyy (nowSecs - 3600 * hours_back), 1000, 1000 * i⟩) ∧
      errorStatus (server (1000 * m)).status ∧
      (server (1000 * m)).status = s ∧
      (∀ i, i < m → ¬ errorStatus (server (1000 * i)).status) ∧
      (rs.map Request.skipParam).Nodup := by
  constructor
  · simp [main, hfetch]
  · simp only [fetch_octopus_events] at hfetch
    obtain ⟨m, hrs, herrm, hsm, hfullm⟩ :=
      fetch_loop_httpError_trace server (mmddyyyy (nowSecs - 3600 * hours_back)) 1000
        fuel 0 [] [] s rs hfetch
    simp only [Nat.zero_add, List.nil_append] at hrs herrm hsm hfullm
    refine ⟨m, hrs, herrm, hsm, fun i hi => (hfullm i hi).1, ?_⟩
    rw [hrs, List.map_map]
    have : (Request.skipParam ∘ fun i =>
        (⟨mmddyyyy (nowSecs - 3600 * hours_back), 1000, 1000 * i⟩ : Request)) =
        fun i => 1000 * i := by
      funext i; rfl
    rw [this]
    exact List.Nodup.map (fun a b hab => by omega) (List.nodup_range (m + 1))

/-- C4 witness: a server answering 500 aborts the run on the first page
with one request and no upload. -/
theorem C4_fetch_http_error_fatal_witness :
    (main srvErr 0 "T" 1 (fun _ => .ok ()) 3 =
      ⟨[⟨mmddyyyy (0 - 3600 * 1), 1000, 0⟩], 0, [], false, false,
        .raisedHttpStatus 500⟩) ∧
    ∃ m, [(⟨mmddyyyy (0 - 3600 * 1), 1000, 0⟩ : Request)] = (List.range (m+1)).map
        (fun i => ⟨mmddyyyy (0 - 3600 * 1), 1000, 1000 * i⟩) ∧
      errorStatus (srvErr (1000 * m)).status ∧
      (srvErr (1000 * m)).status = 500 ∧
      (∀ i, i < m → ¬ errorStatus (srvErr (1000 * i)).status) ∧
      ([(⟨mmddyyyy (0 - 3600 * 1), 1000, 0⟩ : Request)].map Request.skipParam).Nodup :=
  C4_fetch_http_error_fatal srvErr 0 "T" 1 (fun _ => .ok ()) 3 500
    [⟨mmddyyyy (0 - 3600 * 1), 1000, 0⟩] (by rfl)

/-- C7: the unset lookback configuration parses to 1 hour, and every
request of a fetch carries the `from` date equal to now minus the lookback
hours formatted `%m/%d/%Y`, with take 1000; a concrete instant formats as
expected. -/
theorem C7_lookback_default_and_from_date (server : Nat → HttpResponse)
    (nowSecs : Int) (hours_back : Int) (fuel : Nat) (r : Request)
    (hr : r ∈ (fetch_octopus_events server nowSecs hours_back fuel).requests) :
    hours_back_of none = some 1 ∧
    r.fromParam = mmddyyyy (nowSecs - 3600 * hours_back) ∧
    r.takeParam = 1000 ∧
    mmddyyyy (1760234400 - 3600 * 1) = "10/12/2025" := by
  simp only [fetch_octopus_events] at hr
  rcases fetch_loop_fromParam server (mmddyyyy (nowSecs - 3600 * hours_back)) 1000
      fuel 0 [] [] r hr with h | h
  · simp at h
  · exact ⟨by rfl, h.1, h.2, by rfl⟩

/-- C7 witness: a one-page fetch at a concrete instant with the default
lookback of 1 hour issues its only request with the expected `from` date. -/
theorem C7_lookback_default_and_from_date_witness :
    hours_back_of none = some 1 ∧
    (⟨mmddyyyy (1760234400 - 3600 * 1), 1000, 0⟩ : Request).fromParam =
      mmddyyyy (1760234400 - 3600 * 1) ∧
    (⟨mmddyyyy (1760234400 - 3600 * 1), 1000, 0⟩ : Request).takeParam = 1000 ∧
    mmddyyyy (1760234400 - 3600 * 1) = "10/12/2025" :=
  C7_lookback_default_and_from_date srvNoItems 1760234400 1 3
    ⟨mmddyyyy (1760234400 - 3600 * 1), 1000, 0⟩ (by simp [fetch_octopus_events,
      fetch_loop, srvNoItems, errorStatus, FetchResult.requests])

/-- C8: when the upstream item count is an exact multiple of the page size
(n full pages then an effectively empty page), the loop issues exactly one
request beyond the full pages, terminates on the empty page and returns all
items; and in general the loop cannot still be running once any offset
reachable within the fuel serves a page of fewer than 1000 items. -/
theorem C8_exact_multiple_and_termination (server : Nat → HttpResponse)
    (nowSecs : Int) (hours_back : Int) (n fuel : Nat)
    (hfuel : n < fuel)
    (hfull : ∀ i, i < n → ¬ errorStatus (server (1000 * i)).status ∧
      (pageItems server (1000 * i)).length = 1000)
    (hlastok : ¬ errorStatus (server (1000 * n)).status)
    (hempty : (server (1000 * n)).items.getD [] = []) :
    (fetch_octopus_events server nowSecs hours_back fuel =
      .ok (((List.range n).map (fun i => pageItems server (1000 * i))).flatten)
        ((List.range (n+1)).map
          (fun i => ⟨mmddyyyy (nowSecs - 3600 * hours_back), 1000, 1000 * i⟩))) ∧
    (fetch_octopus_events server nowSecs hours_back fuel).requests.length = n + 1 ∧
    (∀ (server2 : Nat → HttpResponse) (now2 hb2 : Int) (k fuel2 : Nat)
      (rs : List Request), k < fuel2 →
      (pageItems server2 (1000 * k)).length < 1000 →
      fetch_octopus_events server2 now2 hb2 fuel2 ≠ .outOfFuel rs) := by
  have h1 := fetch_pages_then_empty server nowSecs hours_back n fuel hfuel hfull
    hlastok (by simpa [pageItems] using hempty)
  refine ⟨h1, ?_, ?_⟩
  · rw [h1]
    simp [FetchResult.requests]
  · intro server2 now2 hb2 k fuel2 rs hk hshort
    simp only [fetch_octopus_events]
    exact fetch_loop_halts server2 (mmddyyyy (now2 - 3600 * hb2)) 1000 k fuel2 0 [] []
      hk (by simpa using hshort) rs

/-- C8 witness: one full page then an empty page gives two requests and all
1000 items. -/
theorem C8_exact_multiple_and_termination_witness :
    (fetch_octopus_events srvFullEmpty 0 1 5 =
      .ok (((List.range 1).map (fun i => pageItems srvFullEmpty (1000 * i))).flatten)
        ((List.range 2).map
          (fun i => ⟨mmddyyyy (0 - 3600 * 1), 1000, 1000 * i⟩))) ∧
    (fetch_octopus_events srvFullEmpty 0 1 5).requests.length = 1 + 1 ∧
    (∀ (server2 : Nat → HttpResponse) (now2 hb2 : Int) (k fuel2 : Nat)
      (rs : List Request), k < fuel2 →
      (pageItems server2 (1000 * k)).length < 1000 →
      fetch_octopus_events server2 now2 hb2 fuel2 ≠ .outOfFuel rs) :=
  C8_exact_multiple_and_termination srvFullEmpty 0 1 1 5 (by omega)
    (fun i hi => by
      interval_cases i
      exact ⟨by decide, by
        rw [show pageItems srvFullEmpty (1000 * 0) = fullPage from rfl, fullPage,
          List.length_replicate]⟩)
    (by decide) (by rfl)

/-- C10: a successful page whose JSON body lacks the Items key is treated
as an empty page: it contributes zero events, ends the pagination loop, and
raises no error. -/
theorem C10_missing_items_key (server : Nat → HttpResponse) (nowSecs : Int)
    (hours_back : Int) (n fuel : Nat)
    (hfuel : n < fuel)
    (hfull : ∀ i, i < n → ¬ errorStatus (server (1000 * i)).status ∧
      (pageItems server (1000 * i)).length = 1000)
    (hlastok : ¬ errorStatus (server (1000 * n)).status)
    (hnokey : (server (1000 * n)).items = none) :
    fetch_octopus_events server nowSecs hours_back fuel =
      .ok (((List.range n).map (fun i => pageItems server (1000 * i))).flatten)
        ((List.range (n+1)).map
          (fun i => ⟨mmddyyyy (nowSecs - 3600 * hours_back), 1000, 1000 * i⟩)) :=
  fetch_pages_then_empty server nowSecs hours_back n fuel hfuel hfull hlastok
    (by simp [pageItems, hnokey])

/-- C10 witness: a first page with status 200 and no Items key returns an
empty event list after one request and no error. -/
theorem C10_missing_items_key_witness :
    fetch_octopus_events srvNoItems 0 1 3 =
      .ok (((List.range 0).map (fun i => pageItems srvNoItems (1000 * i))).flatten)
        ((List.range 1).map
          (fun i => ⟨mmddyyyy (0 - 3600 * 1), 1000, 1000 * i⟩)) :=
  C10_missing_items_key srvNoItems 0 1 0 3 (by omega)
    (fun i hi => absurd hi (Nat.not_lt_zero i)) (by decide) (by rfl)

end Octo2Sent
